import Mathlib

/-!
Verification of the IoT thermostat backend (`server.js`).

The server is a small Express application: device-token authentication,
per-device config (setpoint `sp`, hysteresis width `h`, mode), a hysteresis
relay decision computed on every pushed reading, and a time-series store of
readings with range queries.

JavaScript numbers are modelled by `JsNum`: a finite rational, `NaN`, or a
signed infinity, with the IEEE-754 comparison and propagation rules that the
server's arithmetic relies on (`NaN` compares false, `Math.min`/`Math.max`
return `NaN` when an argument is `NaN`, ...).  Finite values are idealised as
rationals.  Request-body fields that may be of any JavaScript type are
modelled by `JsVal`, so `typeof x === "number"` checks are explicit.
-/

namespace ThermoBackend

/-- A JavaScript number: a finite value (idealised as a rational), one of the
two infinities, or `NaN`. -/
inductive JsNum where
  | fin : ℚ → JsNum
  | posInf : JsNum
  | negInf : JsNum
  | nan : JsNum
deriving DecidableEq, Repr

namespace JsNum

/-- `Number.isFinite`. -/
def isFinite : JsNum → Bool
  | fin _ => true
  | _ => false

/-- The rational value of a finite `JsNum` (0 for the non-finite values;
only used on finite ones). -/
def toQ : JsNum → ℚ
  | fin q => q
  | _ => 0

/-- JavaScript unary minus. -/
def neg : JsNum → JsNum
  | fin q => fin (-q)
  | posInf => negInf
  | negInf => posInf
  | nan => nan

/-- JavaScript `+` on numbers: `NaN` propagates, opposite infinities give
`NaN`. -/
def add : JsNum → JsNum → JsNum
  | nan, _ => nan
  | _, nan => nan
  | posInf, negInf => nan
  | negInf, posInf => nan
  | posInf, _ => posInf
  | _, posInf => posInf
  | negInf, _ => negInf
  | _, negInf => negInf
  | fin a, fin b => fin (a + b)

/-- JavaScript `-` on numbers. -/
def sub (a b : JsNum) : JsNum := a.add b.neg

/-- JavaScript `/` on numbers (the signed zero of IEEE-754 is collapsed to
the single rational zero). -/
def div : JsNum → JsNum → JsNum
  | nan, _ => nan
  | _, nan => nan
  | posInf, posInf => nan
  | posInf, negInf => nan
  | negInf, posInf => nan
  | negInf, negInf => nan
  | posInf, fin b => if b < 0 then negInf else posInf
  | negInf, fin b => if b < 0 then posInf else negInf
  | fin _, posInf => fin 0
  | fin _, negInf => fin 0
  | fin a, fin b =>
      if b = 0 then (if a = 0 then nan else if 0 < a then posInf else negInf)
      else fin (a / b)

/-- JavaScript `<`: any comparison involving `NaN` is `false`. -/
def lt : JsNum → JsNum → Bool
  | nan, _ => false
  | _, nan => false
  | negInf, negInf => false
  | negInf, _ => true
  | _, negInf => false
  | posInf, _ => false
  | fin _, posInf => true
  | fin a, fin b => decide (a < b)

/-- JavaScript `>`. -/
def gt (a b : JsNum) : Bool := lt b a

/-- `Math.max` on two arguments: `NaN` if either argument is `NaN`. -/
def max : JsNum → JsNum → JsNum
  | nan, _ => nan
  | _, nan => nan
  | posInf, _ => posInf
  | _, posInf => posInf
  | negInf, x => x
  | x, negInf => x
  | fin a, fin b => fin (Max.max a b)

/-- `Math.min` on two arguments: `NaN` if either argument is `NaN`. -/
def min : JsNum → JsNum → JsNum
  | nan, _ => nan
  | _, nan => nan
  | negInf, _ => negInf
  | _, negInf => negInf
  | posInf, x => x
  | x, posInf => x
  | fin a, fin b => fin (Min.min a b)

end JsNum

/-- `const clamp = (n,a,b)=>Math.min(Math.max(n,a),b);` (server.js line 94). -/
def clamp (n a b : JsNum) : JsNum := JsNum.min (JsNum.max n a) b

/-- A JavaScript value as found in a JSON request body field. -/
inductive JsVal where
  | num : JsNum → JsVal
  | str : String → JsVal
  | boolean : Bool → JsVal
  | null : JsVal
  | undef : JsVal
deriving DecidableEq, Repr

/-- `typeof v === "number"`. -/
def typeofNumber : JsVal → Bool
  | JsVal.num _ => true
  | _ => false

/-- Extract the number from a `JsVal` when `typeof v === "number"`. -/
def toNum : JsVal → Option JsNum
  | JsVal.num n => some n
  | _ => none

/-- Config mode: the `ConfigSchema` enum `["auto", "manual"]`. -/
inductive Mode where
  | auto : Mode
  | manual : Mode
deriving DecidableEq, Repr

/-- A per-device `Config` document: setpoint `sp`, hysteresis width `h`,
`mode` (server.js lines 71-76). -/
structure Config where
  sp : JsNum
  h : JsNum
  mode : Mode
deriving DecidableEq, Repr

/-- The schema defaults: `sp: 60`, `h: 2`, `mode: "auto"`. -/
def defaultConfig : Config :=
  { sp := JsNum.fin 60, h := JsNum.fin 2, mode := Mode.auto }

/-- A `Device` document (server.js lines 64-69). -/
structure Device where
  deviceId : String
  name : String
  token : String
  enabled : Bool
deriving DecidableEq, Repr

/-- A `Reading` document (server.js lines 78-85).  Timestamps are epoch
milliseconds.  `r1`/`r2` are the optional physical-state fields, never set
by the push path. -/
structure Reading where
  deviceId : String
  s1 : JsNum
  s2 : JsNum
  s3 : JsNum
  s4 : JsNum
  pv : JsNum
  desiredR1 : Bool
  desiredR2 : Bool
  r1 : Option Bool
  r2 : Option Bool
  ts : Nat
deriving DecidableEq, Repr

/-- The four channel values of a push, after the numeric type check. -/
structure Channels where
  s1 : JsNum
  s2 : JsNum
  s3 : JsNum
  s4 : JsNum
deriving DecidableEq, Repr

/-! ### Auth -/

/-- `deviceAuth` (server.js lines 106-112): 401 when the `x-device-token`
header is absent, else look up `Device.findOne({ token: tok, enabled: true })`
and return 403 when no enabled device carries that exact token.  The store is
read, never written. -/
def deviceAuth (devices : List Device) (tok : Option String) : Except Nat Device :=
  match tok with
  | none => Except.error 401
  | some t =>
    match devices.find? (fun d => d.token == t && d.enabled) with
    | none => Except.error 403
    | some d => Except.ok d

/-- The admin role gate of `POST /api/devices` (server.js line 139):
`if (req.user.role !== "admin") return res.sendStatus(403)`. -/
def roleGate (role : String) : Except Nat Unit :=
  if role = "admin" then Except.ok () else Except.error 403

/-! ### Config patch -/

/-- The body of `PATCH /api/config/:deviceId`: the three recognised fields,
each an arbitrary JavaScript value (absent is `undef`). -/
structure PatchBody where
  sp : JsVal
  h : JsVal
  mode : JsVal
deriving DecidableEq, Repr

/-- The patch route body handling (server.js lines 163-168):

    if (typeof sp === "number") patch.sp = clamp(sp, -1000, 2000);
    if (typeof h  === "number" && h > 0) patch.h  = clamp(h, 0.1, 500);
    if (mode === "auto" || mode === "manual") patch.mode = mode;

followed by `findOneAndUpdate({deviceId}, patch, ...)`, which merges the
accepted fields of the `patch` object into the current config; each field is
accepted or dropped independently of the others. -/
def applyPatch (cfg : Config) (b : PatchBody) : Config :=
  { sp := match b.sp with
      | JsVal.num n => clamp n (JsNum.fin (-1000)) (JsNum.fin 2000)
      | _ => cfg.sp,
    h := match b.h with
      | JsVal.num n =>
          if JsNum.gt n (JsNum.fin 0) then clamp n (JsNum.fin (1/10)) (JsNum.fin 500)
          else cfg.h
      | _ => cfg.h,
    mode := match b.mode with
      | JsVal.str s =>
          if s = "auto" then Mode.auto
          else if s = "manual" then Mode.manual
          else cfg.mode
      | _ => cfg.mode }

/-- The reachable `Config` states of one device: created with schema defaults
(explicit provisioning `Config.create({deviceId})`, the push path's
`Config.findOne(...) || Config.create(...)`, or the upsert of a patch on a
missing config, which also starts from the defaults), then any sequence of
patches. -/
inductive ConfigReachable : Config → Prop where
  | init : ConfigReachable defaultConfig
  | patch : ∀ (cfg : Config) (b : PatchBody),
      ConfigReachable cfg → ConfigReachable (applyPatch cfg b)

/-! ### Control engine (push path) -/

/-- `const vals = [s1,s2,s3,s4].filter(Number.isFinite);`
`const pv = vals.length ? vals.reduce((a,b)=>a+b,0)/vals.length : NaN;`
(server.js lines 181-182). -/
def computePV (c : Channels) : JsNum :=
  let vals := [c.s1, c.s2, c.s3, c.s4].filter JsNum.isFinite
  if vals.length = 0 then JsNum.nan
  else (vals.foldl JsNum.add (JsNum.fin 0)).div (JsNum.fin vals.length)

/-- `const wasOn = last ? (last.desiredR1 && last.desiredR2) : false;`
(server.js line 188). -/
def wasOnOf : Option Reading → Bool
  | none => false
  | some r => r.desiredR1 && r.desiredR2

/-- `Reading.findOne({ deviceId }).sort({ ts: -1 })` restricted to one
device's readings: the reading with the greatest timestamp.  The list holds
the most recently inserted reading first, and among equal timestamps the most
recently inserted wins (the spec's arrival-order tie-break). -/
def latest : List Reading → Option Reading
  | [] => none
  | r :: rs =>
    match latest rs with
    | none => some r
    | some m => if m.ts > r.ts then some m else some r

/-- The decision block of the push route (server.js lines 184-194):

    const onThr  = cfg.sp - cfg.h/2;
    const offThr = cfg.sp + cfg.h/2;
    let desiredR1 = wasOn, desiredR2 = wasOn;
    if (cfg.mode === "auto" && Number.isFinite(pv)) {
      if (!wasOn && pv < onThr) { desiredR1 = desiredR2 = true; }
      if ( wasOn && pv > offThr){ desiredR1 = desiredR2 = false; }
    }

Both relay variables always receive the same value, so the result is one
boolean. -/
def decideNext (cfg : Config) (pv : JsNum) (wasOn : Bool) : Bool :=
  let onThr := cfg.sp.sub (cfg.h.div (JsNum.fin 2))
  let offThr := cfg.sp.add (cfg.h.div (JsNum.fin 2))
  if (cfg.mode == Mode.auto) && pv.isFinite then
    let d := wasOn
    let d := if !wasOn && pv.lt onThr then true else d
    let d := if wasOn && pv.gt offThr then false else d
    d
  else wasOn

/-- The `Reading.create` document of the push route (server.js lines
196-200): both desired flags carry the one decision, `r1`/`r2` unset. -/
def mkReading (deviceId : String) (c : Channels) (pv : JsNum) (d : Bool)
    (ts : Nat) : Reading :=
  { deviceId := deviceId, s1 := c.s1, s2 := c.s2, s3 := c.s3, s4 := c.s4,
    pv := pv, desiredR1 := d, desiredR2 := d, r1 := none, r2 := none, ts := ts }

/-- `ts: ts ? new Date(ts) : new Date()`: the body timestamp when present and
truthy (0 is falsy), otherwise the arrival time. -/
def tsOf (bodyTs : Option Nat) (now : Nat) : Nat :=
  match bodyTs with
  | none => now
  | some t => if t = 0 then now else t

/-- One accepted push for one device: compute the process value, read the
previous decision from the latest stored reading, decide, and prepend the
new reading to the device's store (newest-inserted first). -/
def pushStep (cfg : Config) (deviceId : String) (c : Channels) (ts : Nat)
    (st : List Reading) : List Reading :=
  let pv := computePV c
  let wasOn := wasOnOf (latest st)
  let d := decideNext cfg pv wasOn
  mkReading deviceId c pv d ts :: st

/-- The body of `POST /api/thermo/push` (channels as arbitrary JavaScript
values, optional timestamp). -/
structure PushBody where
  s1 : JsVal
  s2 : JsVal
  s3 : JsVal
  s4 : JsVal
  ts : Option Nat
deriving DecidableEq, Repr

/-- The push route after device auth (server.js lines 173-200): reject with
400 unless all four channels satisfy `typeof v === "number"`, else run the
engine and persist.  Returns the updated store. -/
def pushHandler (cfg : Config) (deviceId : String) (b : PushBody) (now : Nat)
    (st : List Reading) : Except Nat (List Reading) :=
  match toNum b.s1, toNum b.s2, toNum b.s3, toNum b.s4 with
  | some n1, some n2, some n3, some n4 =>
      Except.ok (pushStep cfg deviceId ⟨n1, n2, n3, n4⟩ (tsOf b.ts now) st)
  | _, _, _, _ => Except.error 400

/-- A sequence of consecutive pushes (channel vector and timestamp each). -/
def pushMany (cfg : Config) (deviceId : String)
    (inputs : List (Channels × Nat)) (st : List Reading) : List Reading :=
  inputs.foldl (fun s p => pushStep cfg deviceId p.1 p.2 s) st

/-! ### Range query -/

/-- The ascending-timestamp order of `.sort({ ts: 1 })`. -/
def tsLe (a b : Reading) : Prop := a.ts ≤ b.ts

instance : DecidableRel tsLe := fun a b => Nat.decLe a.ts b.ts

instance : IsTotal Reading tsLe := ⟨fun a b => Nat.le_total a.ts b.ts⟩

instance : IsTrans Reading tsLe := ⟨fun _ _ _ hab hbc => Nat.le_trans hab hbc⟩

/-- Sort ascending by timestamp: the `.sort({ ts: 1 })` of the readings
queries. -/
def sortByTs (l : List Reading) : List Reading := List.insertionSort tsLe l

/-- `GET /api/readings` (server.js lines 224-235): filter by device and the
optional inclusive `$gte`/`$lte` timestamp bounds, sort ascending by `ts`,
then apply MongoDB's `.limit(parseInt(limit))`.  A MongoDB limit of `0`
means no limit — every matching document is returned — so only a positive
limit truncates. -/
def range (store : List Reading) (deviceId : String)
    (f t : Option Nat) (limit : Nat) : List Reading :=
  let sorted := sortByTs (store.filter (fun r =>
      r.deviceId == deviceId
      && (match f with | none => true | some x => decide (x ≤ r.ts))
      && (match t with | none => true | some x => decide (r.ts ≤ x))))
  if limit = 0 then sorted else sorted.take limit

/-! ### Theorems -/

/-- `decideNext` on a finite setpoint, width and process value in auto mode,
reduced to the two threshold comparisons. -/
theorem decideNext_auto_fin (sp h pv : ℚ) (w : Bool) :
    decideNext ⟨JsNum.fin sp, JsNum.fin h, Mode.auto⟩ (JsNum.fin pv) w =
      if !w && decide (pv < sp - h / 2) then true
      else if w && decide (sp + h / 2 < pv) then false else w := by
  cases w <;>
    simp [decideNext, JsNum.div, JsNum.sub, JsNum.add, JsNum.neg, JsNum.lt, JsNum.gt,
      JsNum.isFinite, sub_eq_add_neg]

/-- C1: hysteresis decision state machine.  For a push in auto mode with a
finite process value, with `onThreshold = setpoint - hysteresis/2` and
`offThreshold = setpoint + hysteresis/2`: OFF→ON when `pv < onThreshold`,
ON→OFF when `pv > offThreshold`, unchanged whenever `pv` lies in the closed
band `[onThreshold, offThreshold]`; the previous state with no prior Reading
is OFF. -/
theorem c1_hysteresis_decision (sp h pv : ℚ) (w : Bool) :
    (w = false → pv < sp - h / 2 →
      decideNext ⟨JsNum.fin sp, JsNum.fin h, Mode.auto⟩ (JsNum.fin pv) w = true) ∧
    (w = true → sp + h / 2 < pv →
      decideNext ⟨JsNum.fin sp, JsNum.fin h, Mode.auto⟩ (JsNum.fin pv) w = false) ∧
    (sp - h / 2 ≤ pv → pv ≤ sp + h / 2 →
      decideNext ⟨JsNum.fin sp, JsNum.fin h, Mode.auto⟩ (JsNum.fin pv) w = w) ∧
    wasOnOf none = false := by
  refine ⟨?_, ?_, ?_, rfl⟩
  · intro hw hlt
    subst hw
    simp [decideNext_auto_fin, hlt]
  · intro hw hgt
    subst hw
    simp [decideNext_auto_fin, hgt]
  · intro hlo hhi
    have h1 : ¬ (pv < sp - h / 2) := not_lt.mpr hlo
    have h2 : ¬ (sp + h / 2 < pv) := not_lt.mpr hhi
    simp [decideNext_auto_fin, h1, h2]

/-- Witness for C1 at `sp = 60`, `h = 2`, `pv = 58`, previous state OFF:
the decision transitions to ON. -/
theorem c1_hysteresis_decision_witness :
    decideNext ⟨JsNum.fin 60, JsNum.fin 2, Mode.auto⟩ (JsNum.fin 58) false = true :=
  (c1_hysteresis_decision 60 2 58 false).1 rfl (by norm_num)

/-- Folding JavaScript `+` from a finite accumulator over a list of finite
numbers produces the finite sum. -/
theorem foldl_add_fin (l : List JsNum) (q : ℚ)
    (hl : ∀ x ∈ l, x.isFinite = true) :
    l.foldl JsNum.add (JsNum.fin q) = JsNum.fin (q + (l.map JsNum.toQ).sum) := by
  induction l generalizing q with
  | nil => simp
  | cons x xs ih =>
    have hx := hl x (List.mem_cons_self x xs)
    obtain ⟨qx, rfl⟩ : ∃ qq, x = JsNum.fin qq := by
      cases x
      case fin qq => exact ⟨qq, rfl⟩
      all_goals simp [JsNum.isFinite] at hx
    simp only [List.foldl_cons, JsNum.add]
    rw [ih _ (fun y hy => hl y (List.mem_cons_of_mem _ hy))]
    simp only [List.map_cons, List.sum_cons, JsNum.toQ]
    congr 1
    ring

/-- C2: the computed process value is the arithmetic mean of exactly the
channel values that are finite numbers; with zero finite channels it is
`NaN`. -/
theorem c2_process_value (s1 s2 s3 s4 : JsNum) :
    ([s1, s2, s3, s4].filter JsNum.isFinite = [] →
      computePV ⟨s1, s2, s3, s4⟩ = JsNum.nan) ∧
    ([s1, s2, s3, s4].filter JsNum.isFinite ≠ [] →
      computePV ⟨s1, s2, s3, s4⟩ =
        JsNum.fin ((([s1, s2, s3, s4].filter JsNum.isFinite).map JsNum.toQ).sum /
          (([s1, s2, s3, s4].filter JsNum.isFinite).length : ℚ))) := by
  constructor
  · intro he
    simp [computePV, he]
  · intro hne
    have hlen : ([s1, s2, s3, s4].filter JsNum.isFinite).length ≠ 0 := by
      simpa [List.length_eq_zero] using hne
    have hfin : ∀ x ∈ [s1, s2, s3, s4].filter JsNum.isFinite, x.isFinite = true :=
      fun x hx => (List.mem_filter.mp hx).2
    have hcast : (([s1, s2, s3, s4].filter JsNum.isFinite).length : ℚ) ≠ 0 := by
      exact_mod_cast hlen
    show (if ([s1, s2, s3, s4].filter JsNum.isFinite).length = 0 then JsNum.nan
      else (([s1, s2, s3, s4].filter JsNum.isFinite).foldl JsNum.add
        (JsNum.fin 0)).div
          (JsNum.fin (([s1, s2, s3, s4].filter JsNum.isFinite).length : ℚ))) = _
    rw [if_neg hlen, foldl_add_fin _ 0 hfin]
    simp [JsNum.div, hcast]

/-- Witness for C2: channels `1`, `2`, `NaN`, `+∞` have two finite values and
process value `3/2`. -/
theorem c2_process_value_witness :
    [JsNum.fin 1, JsNum.fin 2, JsNum.nan, JsNum.posInf].filter JsNum.isFinite ≠ [] ∧
    computePV ⟨JsNum.fin 1, JsNum.fin 2, JsNum.nan, JsNum.posInf⟩ =
      JsNum.fin ((([JsNum.fin 1, JsNum.fin 2, JsNum.nan,
          JsNum.posInf].filter JsNum.isFinite).map JsNum.toQ).sum /
        (([JsNum.fin 1, JsNum.fin 2, JsNum.nan,
          JsNum.posInf].filter JsNum.isFinite).length : ℚ)) :=
  ⟨by decide, (c2_process_value (JsNum.fin 1) (JsNum.fin 2) JsNum.nan
    JsNum.posInf).2 (by decide)⟩

/-- C5: config patch validation.  A numeric setpoint is stored as
`clamp(sp, -1000, 2000)` (and `5000` clamps to `2000`); a numeric
hysteresis `> 0` is stored clamped into `[0.1, 500]` while a non-positive
or non-numeric hysteresis is dropped; a mode other than exactly `"auto"`
or `"manual"` is dropped while `"manual"` is applied; each field is
accepted or dropped independently of the others. -/
theorem c5_patch_validation (cfg : Config) (b : PatchBody) (nsp nh : JsNum) :
    (b.sp = JsVal.num nsp →
      (applyPatch cfg b).sp = clamp nsp (JsNum.fin (-1000)) (JsNum.fin 2000)) ∧
    clamp (JsNum.fin 5000) (JsNum.fin (-1000)) (JsNum.fin 2000) = JsNum.fin 2000 ∧
    (b.h = JsVal.num nh → JsNum.gt nh (JsNum.fin 0) = true →
      (applyPatch cfg b).h = clamp nh (JsNum.fin (1/10)) (JsNum.fin 500) ∧
      ∃ q : ℚ, clamp nh (JsNum.fin (1/10)) (JsNum.fin 500) = JsNum.fin q ∧
        1/10 ≤ q ∧ q ≤ 500) ∧
    (b.h = JsVal.num nh → JsNum.gt nh (JsNum.fin 0) = false →
      (applyPatch cfg b).h = cfg.h) ∧
    (typeofNumber b.h = false → (applyPatch cfg b).h = cfg.h) ∧
    (b.mode = JsVal.str "manual" → (applyPatch cfg b).mode = Mode.manual) ∧
    (b.mode ≠ JsVal.str "auto" → b.mode ≠ JsVal.str "manual" →
      (applyPatch cfg b).mode = cfg.mode) := by
  refine ⟨?_, by decide, ?_, ?_, ?_, ?_, ?_⟩
  · intro hsp
    simp [applyPatch, hsp]
  · intro hh hgt
    refine ⟨by simp [applyPatch, hh, hgt], ?_⟩
    cases nh with
    | fin q =>
      refine ⟨Min.min (Max.max q (1/10)) 500, by simp [clamp, JsNum.max, JsNum.min], ?_, ?_⟩
      · exact le_min (le_max_right _ _) (by norm_num)
      · exact min_le_right _ _
    | posInf => exact ⟨500, by simp [clamp, JsNum.max, JsNum.min], by norm_num, le_refl _⟩
    | negInf => simp [JsNum.gt, JsNum.lt] at hgt
    | nan => simp [JsNum.gt, JsNum.lt] at hgt
  · intro hh hgt
    simp [applyPatch, hh, hgt]
  · intro hh
    cases hb : b.h
    case num n => rw [hb] at hh; simp [typeofNumber] at hh
    all_goals simp [applyPatch, hb]
  · intro hm
    simp [applyPatch, hm]
  · intro hma hmm
    cases hb : b.mode with
    | str s =>
      have hsa : ¬ s = "auto" := fun h => hma (by rw [hb, h])
      have hsm : ¬ s = "manual" := fun h => hmm (by rw [hb, h])
      simp [applyPatch, hb, hsa, hsm]
    | _ => simp [applyPatch, hb]

/-- Witness for C5: patching `{sp: 5000, h: -1, mode: "manual"}` on the
default config stores `sp = 2000`, keeps `h = 2`, and sets manual mode. -/
theorem c5_patch_validation_witness :
    (applyPatch defaultConfig
        ⟨JsVal.num (JsNum.fin 5000), JsVal.num (JsNum.fin (-1)),
          JsVal.str "manual"⟩).sp =
      clamp (JsNum.fin 5000) (JsNum.fin (-1000)) (JsNum.fin 2000) ∧
    (applyPatch defaultConfig
        ⟨JsVal.num (JsNum.fin 5000), JsVal.num (JsNum.fin (-1)),
          JsVal.str "manual"⟩).h = defaultConfig.h ∧
    (applyPatch defaultConfig
        ⟨JsVal.num (JsNum.fin 5000), JsVal.num (JsNum.fin (-1)),
          JsVal.str "manual"⟩).mode = Mode.manual :=
  ⟨(c5_patch_validation defaultConfig _ (JsNum.fin 5000) (JsNum.fin (-1))).1 rfl,
   (c5_patch_validation defaultConfig _ (JsNum.fin 5000)
      (JsNum.fin (-1))).2.2.2.1 rfl (by decide),
   (c5_patch_validation defaultConfig _ (JsNum.fin 5000)
      (JsNum.fin (-1))).2.2.2.2.2.1 rfl⟩

/-- `deviceAuth` with a present token, reduced to the device lookup. -/
theorem deviceAuth_some (devices : List Device) (t : String) :
    deviceAuth devices (some t) =
      match devices.find? (fun d => d.token == t && d.enabled) with
      | none => Except.error 403
      | some d => Except.ok d := rfl

/-- C7: device authentication.  A missing token yields 401 with no state
change; a presented token succeeds exactly when an enabled device carries
that exact token, and otherwise fails with 403 — the same status as the
admin-role authorization gate returns for a non-admin. -/
theorem c7_device_auth (devices : List Device) (t : String) :
    deviceAuth devices none = Except.error 401 ∧
    ((∃ d, deviceAuth devices (some t) = Except.ok d) ↔
      ∃ d ∈ devices, d.token = t ∧ d.enabled = true) ∧
    ((¬ ∃ d ∈ devices, d.token = t ∧ d.enabled = true) →
      deviceAuth devices (some t) = Except.error 403) ∧
    roleGate "viewer" = Except.error 403 := by
  refine ⟨rfl, ?_, ?_, rfl⟩
  · constructor
    · rintro ⟨d, hd⟩
      rw [deviceAuth_some] at hd
      cases hf : devices.find? (fun d => d.token == t && d.enabled) with
      | none => rw [hf] at hd; cases hd
      | some d0 =>
        have hmem := List.mem_of_find?_eq_some hf
        have hp := List.find?_some hf
        simp only [Bool.and_eq_true, beq_iff_eq] at hp
        exact ⟨d0, hmem, hp.1, hp.2⟩
    · rintro ⟨d, hmem, htok, hen⟩
      rw [deviceAuth_some]
      cases hf : devices.find? (fun d => d.token == t && d.enabled) with
      | none =>
        have := List.find?_eq_none.mp hf d hmem
        simp [htok, hen] at this
      | some d0 => exact ⟨d0, rfl⟩
  · intro hno
    rw [deviceAuth_some]
    cases hf : devices.find? (fun d => d.token == t && d.enabled) with
    | none => rfl
    | some d0 =>
      have hmem := List.mem_of_find?_eq_some hf
      have hp := List.find?_some hf
      simp only [Bool.and_eq_true, beq_iff_eq] at hp
      exact absurd ⟨d0, hmem, hp.1, hp.2⟩ hno

/-- Witness for C7: an empty device registry rejects any presented token
with 403. -/
theorem c7_device_auth_witness :
    deviceAuth [] (some "tok") = Except.error 403 :=
  (c7_device_auth [] "tok").2.2.1 (by simp)

/-- C9: every reading persisted by the push path carries one coupled
decision (`desiredR1 = desiredR2`), and the engine reads the previous state
as ON exactly when both flags of the latest reading are true. -/
theorem c9_coupled_relays (cfg : Config) (dev : String) (c : Channels)
    (ts : Nat) (st : List Reading) (r : Reading) (rr : Reading)
    (hr : (pushStep cfg dev c ts st).head? = some r) :
    r.desiredR1 = r.desiredR2 ∧
    (wasOnOf (some rr) = true ↔ rr.desiredR1 = true ∧ rr.desiredR2 = true) := by
  constructor
  · have hr' : r = mkReading dev c (computePV c)
        (decideNext cfg (computePV c) (wasOnOf (latest st))) ts := by
      simp only [pushStep, List.head?_cons, Option.some.injEq] at hr
      exact hr.symm
    rw [hr']
    rfl
  · simp [wasOnOf, Bool.and_eq_true]

/-- Witness for C9: the first push of an all-`NaN` reading on an empty store
persists equal (OFF) flags. -/
theorem c9_coupled_relays_witness :
    (mkReading "dev" ⟨JsNum.nan, JsNum.nan, JsNum.nan, JsNum.nan⟩ JsNum.nan
        false 1).desiredR1 =
      (mkReading "dev" ⟨JsNum.nan, JsNum.nan, JsNum.nan, JsNum.nan⟩ JsNum.nan
        false 1).desiredR2 ∧
    (wasOnOf (some (mkReading "dev" ⟨JsNum.nan, JsNum.nan, JsNum.nan,
        JsNum.nan⟩ JsNum.nan false 1)) = true ↔
      (mkReading "dev" ⟨JsNum.nan, JsNum.nan, JsNum.nan, JsNum.nan⟩ JsNum.nan
          false 1).desiredR1 = true ∧
      (mkReading "dev" ⟨JsNum.nan, JsNum.nan, JsNum.nan, JsNum.nan⟩ JsNum.nan
          false 1).desiredR2 = true) :=
  c9_coupled_relays defaultConfig "dev" ⟨JsNum.nan, JsNum.nan, JsNum.nan, JsNum.nan⟩
    1 [] _ _ (by decide)

/-- C10: the config patch accepts non-finite numeric setpoints — `NaN`
passes the `typeof`-number check, `clamp(NaN, -1000, 2000)` is `NaN`, so the
stored setpoint is `NaN` and lies outside `[-1000, 2000]`; the hysteresis
field's `> 0` guard drops `NaN`, leaving it unchanged. -/
theorem c10_nan_setpoint (cfg : Config) (mv : JsVal) :
    typeofNumber (JsVal.num JsNum.nan) = true ∧
    clamp JsNum.nan (JsNum.fin (-1000)) (JsNum.fin 2000) = JsNum.nan ∧
    (applyPatch cfg ⟨JsVal.num JsNum.nan, JsVal.num JsNum.nan, mv⟩).sp = JsNum.nan ∧
    (applyPatch cfg ⟨JsVal.num JsNum.nan, JsVal.num JsNum.nan, mv⟩).sp.isFinite
      = false ∧
    (¬ ∃ q : ℚ, (applyPatch cfg ⟨JsVal.num JsNum.nan, JsVal.num JsNum.nan,
        mv⟩).sp = JsNum.fin q ∧ -1000 ≤ q ∧ q ≤ 2000) ∧
    (applyPatch cfg ⟨JsVal.num JsNum.nan, JsVal.num JsNum.nan, mv⟩).h = cfg.h := by
  refine ⟨rfl, rfl, ?_, ?_, ?_, ?_⟩
  · simp [applyPatch, clamp, JsNum.max, JsNum.min]
  · simp [applyPatch, clamp, JsNum.max, JsNum.min, JsNum.isFinite]
  · rintro ⟨q, hq, -, -⟩
    simp [applyPatch, clamp, JsNum.max, JsNum.min] at hq
  · simp [applyPatch, JsNum.gt, JsNum.lt]

/-- In manual mode the decision block never fires. -/
theorem decideNext_manual (cfg : Config) (hm : cfg.mode = Mode.manual)
    (pv : JsNum) (w : Bool) : decideNext cfg pv w = w := by
  simp [decideNext, hm]

/-- With an undefined (`NaN`) process value the decision block never
fires. -/
theorem decideNext_nan (cfg : Config) (w : Bool) :
    decideNext cfg JsNum.nan w = w := by
  simp [decideNext, JsNum.isFinite]

/-- With all four channels non-finite the process value is `NaN`. -/
theorem computePV_all_invalid (c : Channels) (h1 : c.s1.isFinite = false)
    (h2 : c.s2.isFinite = false) (h3 : c.s3.isFinite = false)
    (h4 : c.s4.isFinite = false) : computePV c = JsNum.nan := by
  simp [computePV, List.filter, h1, h2, h3, h4]

/-- One unfolding step of `latest`. -/
theorem latest_cons (r : Reading) (st : List Reading) :
    latest (r :: st) =
      match latest st with
      | none => some r
      | some m => if m.ts > r.ts then some m else some r := rfl

/-- Prepending a reading whose coupled flags equal the current "was on"
state does not change the "was on" state read from the latest reading. -/
theorem wasOn_latest_cons (r : Reading) (st : List Reading)
    (hflags : (r.desiredR1 && r.desiredR2) = wasOnOf (latest st)) :
    wasOnOf (latest (r :: st)) = wasOnOf (latest st) := by
  cases hl : latest st with
  | none =>
    rw [latest_cons, hl]
    rw [hl] at hflags
    simpa [wasOnOf] using hflags
  | some m =>
    rw [latest_cons, hl]
    rw [hl] at hflags
    by_cases hts : m.ts > r.ts
    · simp [hts, wasOnOf]
    · simp only [if_neg hts]
      simpa [wasOnOf] using hflags

/-- A manual-mode push prepends a reading that copies the previous
decision. -/
theorem pushStep_manual_head (cfg : Config) (hm : cfg.mode = Mode.manual)
    (dev : String) (c : Channels) (ts : Nat) (st : List Reading) :
    pushStep cfg dev c ts st =
      mkReading dev c (computePV c) (wasOnOf (latest st)) ts :: st := by
  simp [pushStep, decideNext_manual cfg hm]

/-- A manual-mode push preserves the "was on" state. -/
theorem pushStep_manual_wasOn (cfg : Config) (hm : cfg.mode = Mode.manual)
    (dev : String) (c : Channels) (ts : Nat) (st : List Reading) :
    wasOnOf (latest (pushStep cfg dev c ts st)) = wasOnOf (latest st) := by
  rw [pushStep_manual_head cfg hm]
  apply wasOn_latest_cons
  simp [mkReading]

/-- C3: in manual mode the decision never changes via the push path.  Any
sequence of consecutive pushes appends exactly one reading per push, and
every appended reading carries the previous decision (OFF when no reading
existed), regardless of the pushed channel values. -/
theorem c3_manual_mode (cfg : Config) (dev : String)
    (inputs : List (Channels × Nat)) (st : List Reading)
    (hm : cfg.mode = Mode.manual) :
    ∃ pre, pushMany cfg dev inputs st = pre ++ st ∧
      pre.length = inputs.length ∧
      ∀ r ∈ pre, r.desiredR1 = wasOnOf (latest st) ∧
        r.desiredR2 = wasOnOf (latest st) := by
  induction inputs generalizing st with
  | nil => exact ⟨[], rfl, rfl, by simp⟩
  | cons p rest ih =>
    have hstep : pushMany cfg dev (p :: rest) st =
        pushMany cfg dev rest (pushStep cfg dev p.1 p.2 st) := rfl
    obtain ⟨pre, hpre, hlen, hall⟩ := ih (pushStep cfg dev p.1 p.2 st)
    refine ⟨pre ++ [mkReading dev p.1 (computePV p.1) (wasOnOf (latest st)) p.2],
      ?_, ?_, ?_⟩
    · rw [hstep, hpre, pushStep_manual_head cfg hm]
      simp
    · simp [hlen]
    · intro r hr
      rcases List.mem_append.mp hr with hr | hr
      · have hprev := hall r hr
        rwa [pushStep_manual_wasOn cfg hm] at hprev
      · have hr' : r = mkReading dev p.1 (computePV p.1) (wasOnOf (latest st)) p.2 := by
          simpa using hr
        subst hr'
        exact ⟨rfl, rfl⟩

/-- Witness for C3: one manual-mode push on an empty store appends one
reading with the OFF decision. -/
theorem c3_manual_mode_witness :
    ∃ pre, pushMany ⟨JsNum.fin 60, JsNum.fin 2, Mode.manual⟩ "dev"
        [(⟨JsNum.fin 0, JsNum.fin 0, JsNum.fin 0, JsNum.fin 0⟩, 5)] [] =
          pre ++ [] ∧
      pre.length = [((⟨JsNum.fin 0, JsNum.fin 0, JsNum.fin 0, JsNum.fin 0⟩ :
          Channels), 5)].length ∧
      ∀ r ∈ pre, r.desiredR1 = wasOnOf (latest []) ∧
        r.desiredR2 = wasOnOf (latest []) :=
  c3_manual_mode ⟨JsNum.fin 60, JsNum.fin 2, Mode.manual⟩ "dev"
    [(⟨JsNum.fin 0, JsNum.fin 0, JsNum.fin 0, JsNum.fin 0⟩, 5)] [] rfl

/-- C4: a push by an authenticated enabled device whose four channels are
all numeric but non-finite is not rejected: the reading is persisted with a
`NaN` process value and the previous decision. -/
theorem c4_all_invalid_push (devices : List Device) (t : String) (dev : Device)
    (cfg : Config) (n1 n2 n3 n4 : JsNum) (bts : Option Nat) (now : Nat)
    (st : List Reading)
    (_hauth : deviceAuth devices (some t) = Except.ok dev)
    (h1 : n1.isFinite = false) (h2 : n2.isFinite = false)
    (h3 : n3.isFinite = false) (h4 : n4.isFinite = false) :
    pushHandler cfg dev.deviceId
        ⟨JsVal.num n1, JsVal.num n2, JsVal.num n3, JsVal.num n4, bts⟩ now st =
      Except.ok (mkReading dev.deviceId ⟨n1, n2, n3, n4⟩ JsNum.nan
        (wasOnOf (latest st)) (tsOf bts now) :: st) ∧
    (mkReading dev.deviceId ⟨n1, n2, n3, n4⟩ JsNum.nan (wasOnOf (latest st))
        (tsOf bts now)).pv = JsNum.nan := by
  constructor
  · have hpv : computePV ⟨n1, n2, n3, n4⟩ = JsNum.nan :=
      computePV_all_invalid ⟨n1, n2, n3, n4⟩ h1 h2 h3 h4
    simp only [pushHandler, toNum]
    rw [show pushStep cfg dev.deviceId ⟨n1, n2, n3, n4⟩ (tsOf bts now) st =
        mkReading dev.deviceId ⟨n1, n2, n3, n4⟩ (computePV ⟨n1, n2, n3, n4⟩)
          (decideNext cfg (computePV ⟨n1, n2, n3, n4⟩) (wasOnOf (latest st)))
          (tsOf bts now) :: st from rfl, hpv, decideNext_nan]
  · rfl

/-- Witness for C4: an all-`NaN` push by a registered enabled device on an
empty store is persisted with `NaN` process value and the OFF decision. -/
theorem c4_all_invalid_push_witness :
    pushHandler defaultConfig (Device.mk "d1" "name" "tok" true).deviceId
        ⟨JsVal.num JsNum.nan, JsVal.num JsNum.nan, JsVal.num JsNum.nan,
          JsVal.num JsNum.nan, some 7⟩ 3 [] =
      Except.ok (mkReading (Device.mk "d1" "name" "tok" true).deviceId
        ⟨JsNum.nan, JsNum.nan, JsNum.nan, JsNum.nan⟩ JsNum.nan
        (wasOnOf (latest [])) (tsOf (some 7) 3) :: []) ∧
    (mkReading (Device.mk "d1" "name" "tok" true).deviceId
        ⟨JsNum.nan, JsNum.nan, JsNum.nan, JsNum.nan⟩ JsNum.nan
        (wasOnOf (latest [])) (tsOf (some 7) 3)).pv = JsNum.nan :=
  c4_all_invalid_push [Device.mk "d1" "name" "tok" true] "tok"
    (Device.mk "d1" "name" "tok" true) defaultConfig JsNum.nan JsNum.nan
    JsNum.nan JsNum.nan (some 7) 3 [] rfl rfl rfl rfl rfl

/-- An accepted hysteresis value (numeric and `> 0` in the JavaScript
comparison) clamps into `[0.1, 500]`. -/
theorem clamp_h_mem (n : JsNum) (hgt : JsNum.gt n (JsNum.fin 0) = true) :
    ∃ q : ℚ, clamp n (JsNum.fin (1/10)) (JsNum.fin 500) = JsNum.fin q ∧
      1/10 ≤ q ∧ q ≤ 500 := by
  cases n with
  | fin q =>
    exact ⟨Min.min (Max.max q (1/10)) 500, by simp [clamp, JsNum.max, JsNum.min],
      le_min (le_max_right _ _) (by norm_num), min_le_right _ _⟩
  | posInf =>
    exact ⟨500, by simp [clamp, JsNum.max, JsNum.min], by norm_num, le_refl _⟩
  | negInf => simp [JsNum.gt, JsNum.lt] at hgt
  | nan => simp [JsNum.gt, JsNum.lt] at hgt

/-- A patch leaves `h` unchanged or stores a value in `[0.1, 500]`. -/
theorem applyPatch_h_cases (cfg : Config) (b : PatchBody) :
    (applyPatch cfg b).h = cfg.h ∨
      ∃ q : ℚ, (applyPatch cfg b).h = JsNum.fin q ∧ 1/10 ≤ q ∧ q ≤ 500 := by
  cases hb : b.h with
  | num n =>
    by_cases hgt : JsNum.gt n (JsNum.fin 0) = true
    · obtain ⟨q, hq, ha, hc⟩ := clamp_h_mem n hgt
      rw [one_div] at hq
      exact Or.inr ⟨q, by simp [applyPatch, hb, hgt, hq], ha, hc⟩
    · simp only [Bool.not_eq_true] at hgt
      exact Or.inl (by simp [applyPatch, hb, hgt])
  | str s => exact Or.inl (by simp [applyPatch, hb])
  | boolean v => exact Or.inl (by simp [applyPatch, hb])
  | null => exact Or.inl (by simp [applyPatch, hb])
  | undef => exact Or.inl (by simp [applyPatch, hb])

/-- C6: the stored hysteresis width is strictly positive in every reachable
config state: it is `2` at creation, and every patch either leaves it
unchanged or stores a value in `[0.1, 500]`. -/
theorem c6_hysteresis_invariant (cfg cfg2 : Config) (b : PatchBody)
    (hr : ConfigReachable cfg) :
    (∃ q : ℚ, cfg.h = JsNum.fin q ∧ 0 < q) ∧
    defaultConfig.h = JsNum.fin 2 ∧
    ((applyPatch cfg2 b).h = cfg2.h ∨
      ∃ q : ℚ, (applyPatch cfg2 b).h = JsNum.fin q ∧ 1/10 ≤ q ∧ q ≤ 500) := by
  refine ⟨?_, rfl, applyPatch_h_cases cfg2 b⟩
  induction hr with
  | init => exact ⟨2, rfl, by norm_num⟩
  | patch cfg0 b0 hr0 ih =>
    obtain ⟨q, hq, hpos⟩ := ih
    rcases applyPatch_h_cases cfg0 b0 with he | ⟨q2, hq2, ha, hc⟩
    · exact ⟨q, he.trans hq, hpos⟩
    · exact ⟨q2, hq2, lt_of_lt_of_le (by norm_num) ha⟩

/-- Witness for C6 at the freshly created default config and an empty
patch. -/
theorem c6_hysteresis_invariant_witness :
    (∃ q : ℚ, defaultConfig.h = JsNum.fin q ∧ 0 < q) ∧
    defaultConfig.h = JsNum.fin 2 ∧
    ((applyPatch defaultConfig ⟨JsVal.undef, JsVal.undef, JsVal.undef⟩).h =
        defaultConfig.h ∨
      ∃ q : ℚ, (applyPatch defaultConfig
          ⟨JsVal.undef, JsVal.undef, JsVal.undef⟩).h = JsNum.fin q ∧
        1/10 ≤ q ∧ q ≤ 500) :=
  c6_hysteresis_invariant defaultConfig defaultConfig
    ⟨JsVal.undef, JsVal.undef, JsVal.undef⟩ ConfigReachable.init

/-- C8 counterexample: with requested limit `0`, MongoDB's `limit(0)` means
no limit, so a store holding one matching reading returns it and the result
length `1` exceeds the requested limit `0`. -/
theorem c8_range_query_counterexample :
    (range [mkReading "dev" ⟨JsNum.fin 1, JsNum.fin 1, JsNum.fin 1,
        JsNum.fin 1⟩ (JsNum.fin 1) false 10] "dev" none none 0).length = 1 ∧
    ¬ ((range [mkReading "dev" ⟨JsNum.fin 1, JsNum.fin 1, JsNum.fin 1,
        JsNum.fin 1⟩ (JsNum.fin 1) false 10] "dev" none none 0).length ≤ 0) :=
  ⟨by decide, by decide⟩

/-- Every reading returned by the range query passed the device and bounds
filter. -/
theorem range_mem_filter (store : List Reading) (d : String) (f t : Option Nat)
    (limit : Nat) (r : Reading) (hr : r ∈ range store d f t limit) :
    r ∈ store.filter (fun r =>
      r.deviceId == d
      && (match f with | none => true | some x => decide (x ≤ r.ts))
      && (match t with | none => true | some x => decide (r.ts ≤ x))) := by
  simp only [range, sortByTs] at hr
  refine (List.perm_insertionSort tsLe _).mem_iff.mp ?_
  by_cases h0 : limit = 0
  · simpa [h0] using hr
  · rw [if_neg h0] at hr
    exact List.mem_of_mem_take hr

/-- C8 (amended): every reading returned by the range query belongs to the
requested device and lies within the inclusive bounds when given, and the
result is ordered non-decreasing by timestamp; the length never exceeds the
requested limit whenever that limit is positive (a limit of `0` is MongoDB's
"no limit" and does not truncate). -/
theorem c8_range_query (store : List Reading) (d : String) (f t : Option Nat)
    (limit : Nat) (r : Reading) (x y : Nat)
    (hr : r ∈ range store d f t limit) :
    r.deviceId = d ∧
    (f = some x → x ≤ r.ts) ∧
    (t = some y → r.ts ≤ y) ∧
    List.Sorted tsLe (range store d f t limit) ∧
    (0 < limit → (range store d f t limit).length ≤ limit) := by
  have hmem2 := range_mem_filter store d f t limit r hr
  obtain ⟨-, hp⟩ := List.mem_filter.mp hmem2
  simp only [Bool.and_eq_true, beq_iff_eq] at hp
  obtain ⟨⟨hdev, hf'⟩, ht'⟩ := hp
  refine ⟨hdev, ?_, ?_, ?_, ?_⟩
  · intro hfx
    subst hfx
    simpa using hf'
  · intro hty
    subst hty
    simpa using ht'
  · show List.Sorted tsLe (range store d f t limit)
    simp only [range, sortByTs]
    by_cases h0 : limit = 0
    · simpa [h0] using List.sorted_insertionSort tsLe _
    · rw [if_neg h0]
      exact (List.sorted_insertionSort tsLe _).sublist (List.take_sublist _ _)
  · intro hpos
    have h0 : ¬ limit = 0 := Nat.pos_iff_ne_zero.mp hpos
    show (range store d f t limit).length ≤ limit
    simp only [range, sortByTs]
    rw [if_neg h0, List.length_take]
    exact min_le_left _ _

/-- Witness for C8: a one-reading store queried with bounds `[5, 20]` and
limit `3`. -/
theorem c8_range_query_witness :
    (mkReading "dev" ⟨JsNum.fin 1, JsNum.fin 1, JsNum.fin 1, JsNum.fin 1⟩
        (JsNum.fin 1) false 10).deviceId = "dev" ∧
    (some 5 = some 5 → 5 ≤ (mkReading "dev" ⟨JsNum.fin 1, JsNum.fin 1,
        JsNum.fin 1, JsNum.fin 1⟩ (JsNum.fin 1) false 10).ts) ∧
    (some 20 = some 20 → (mkReading "dev" ⟨JsNum.fin 1, JsNum.fin 1,
        JsNum.fin 1, JsNum.fin 1⟩ (JsNum.fin 1) false 10).ts ≤ 20) ∧
    List.Sorted tsLe (range [mkReading "dev" ⟨JsNum.fin 1, JsNum.fin 1,
        JsNum.fin 1, JsNum.fin 1⟩ (JsNum.fin 1) false 10] "dev"
      (some 5) (some 20) 3) ∧
    (0 < 3 → (range [mkReading "dev" ⟨JsNum.fin 1, JsNum.fin 1, JsNum.fin 1,
        JsNum.fin 1⟩ (JsNum.fin 1) false 10] "dev"
      (some 5) (some 20) 3).length ≤ 3) :=
  c8_range_query [mkReading "dev" ⟨JsNum.fin 1, JsNum.fin 1, JsNum.fin 1,
      JsNum.fin 1⟩ (JsNum.fin 1) false 10] "dev" (some 5) (some 20) 3
    (mkReading "dev" ⟨JsNum.fin 1, JsNum.fin 1, JsNum.fin 1, JsNum.fin 1⟩
      (JsNum.fin 1) false 10) 5 20 (by decide)

/-- Witness for C10 at the default config: the stored setpoint after a `NaN`
patch is `NaN` while the hysteresis stays `2`. -/
theorem c10_nan_setpoint_witness :
    typeofNumber (JsVal.num JsNum.nan) = true ∧
    clamp JsNum.nan (JsNum.fin (-1000)) (JsNum.fin 2000) = JsNum.nan ∧
    (applyPatch defaultConfig ⟨JsVal.num JsNum.nan, JsVal.num JsNum.nan,
        JsVal.undef⟩).sp = JsNum.nan ∧
    (applyPatch defaultConfig ⟨JsVal.num JsNum.nan, JsVal.num JsNum.nan,
        JsVal.undef⟩).sp.isFinite = false ∧
    (¬ ∃ q : ℚ, (applyPatch defaultConfig ⟨JsVal.num JsNum.nan,
        JsVal.num JsNum.nan, JsVal.undef⟩).sp = JsNum.fin q ∧
      -1000 ≤ q ∧ q ≤ 2000) ∧
    (applyPatch defaultConfig ⟨JsVal.num JsNum.nan, JsVal.num JsNum.nan,
        JsVal.undef⟩).h = defaultConfig.h :=
  c10_nan_setpoint defaultConfig JsVal.undef

end ThermoBackend
